import Mathlib

/-!
Shallow embedding of the Solana multisig program
(`programs/multisig/src/lib.rs`) and proofs about its operations.

Modelling conventions:
* `Pubkey` is abstracted as `Nat` (the program only compares keys for
  equality and searches lists of them).
* `u64` fields are `Nat`; `checked_add` overflow is explicit via
  `checked_add_u64` (`none` exactly when the `u64` sum would exceed
  `2^64 - 1`).
* `i64` fields (delay, eta, timestamps) are `Int`.
* Every instruction handler is a pure function returning
  `Except ErrorCode σ`; on Solana a returned error aborts the whole
  transaction, so an `Except.error` result models "no state change".
* Anchor `init` zero-initializes freshly created accounts, so fields
  the handler body never assigns keep the value `0` / `[]`.
-/

deriving instance DecidableEq for Except

/-- `u64::MAX`. -/
def U64_MAX : Nat := 2 ^ 64 - 1

/-- Rust `u64::checked_add`: `none` exactly when the sum would wrap. -/
def checked_add_u64 (a b : Nat) : Option Nat :=
  if a + b ≤ U64_MAX then some (a + b) else none

/-- Rust `Iterator::position`: index of the first element satisfying `p`. -/
def position {α : Type} (p : α → Bool) : List α → Option Nat
  | [] => none
  | a :: l => if p a then some 0 else (position p l).map (· + 1)

/-- `AccountMeta`-like entry of a stored instruction (`TransactionInstructionMeta`). -/
structure TransactionInstructionMeta where
  pubkey : Nat
  is_signer : Bool
  is_writable : Bool
deriving DecidableEq, Repr

/-- A stored sub-instruction of a proposal (`TransactionInstruction`). -/
structure TransactionInstruction where
  program_id : Nat
  keys : List TransactionInstructionMeta
  data : List Nat
deriving DecidableEq, Repr

/-- The `Multisig` account (the spec's Authority Group). -/
structure Multisig where
  base : Nat
  bump : Nat
  threshold : Nat
  delay : Int
  grace_period : Int
  num_transactions : Nat
  owners_seq_no : Nat
  owners : List Nat
deriving DecidableEq, Repr

/-- The `Transaction` account (the spec's Proposal). -/
structure Transaction where
  multisig : Nat
  index : Nat
  bump : Nat
  eta : Int
  owners_seq_no : Nat
  proposer : Nat
  instructions : List TransactionInstruction
  signers : List Bool
  executor : Nat
  executed_at : Int
deriving DecidableEq, Repr

/-- The program's `ErrorCode` enum. Spec aliases: `InvalidOwner` =
`NotAnOwner`, `NotEnoughSigners` = `QuorumNotMet`, `Overflow` =
`ArithmeticOverflow`, `OwnersChanged` = `StaleAuthorization`,
`BeforeETA` = `TimelockNotElapsed`, `UniqueOwners` = `DuplicateOwners`. -/
inductive ErrorCode where
  | InvalidOwner
  | NotEnoughSigners
  | TransactionAlreadySigned
  | Overflow
  | UnableToDelete
  | AlreadyExecuted
  | InvalidThreshold
  | InvalidDelay
  | OwnersChanged
  | BeforeETA
  | UniqueOwners
deriving DecidableEq, Repr

/-- `require_unique_owners`: the Rust sorts a copy, removes adjacent
duplicates and compares lengths; sort-then-adjacent-dedup equals full
`dedup`, so the length test is `owners.dedup.length = owners.length`. -/
def require_unique_owners (owners : List Nat) : Except ErrorCode Unit :=
  if owners.dedup.length = owners.length then Except.ok ()
  else Except.error ErrorCode.UniqueOwners

/-- `create_multisig`. Anchor zero-initializes the account, so
`num_transactions` and `owners_seq_no` start at 0; the body validates
only owner uniqueness (no threshold or delay check). -/
def create_multisig (base : Nat) (owners : List Nat) (threshold : Nat)
    (delay : Int) (bump : Nat) : Except ErrorCode Multisig :=
  match require_unique_owners owners with
  | Except.error e => Except.error e
  | Except.ok _ =>
    Except.ok
      { base := base
        bump := bump
        threshold := threshold
        delay := delay
        grace_period := 14 * 24 * 3600
        num_transactions := 0
        owners_seq_no := 0
        owners := owners }

/-- `set_owners`: clamps the threshold to the new list length when the
list is shorter, replaces the owner list and bumps `owners_seq_no`. -/
def set_owners (ms : Multisig) (owners : List Nat) : Except ErrorCode Multisig :=
  match require_unique_owners owners with
  | Except.error e => Except.error e
  | Except.ok _ =>
    let t := if owners.length < ms.threshold then owners.length else ms.threshold
    match checked_add_u64 ms.owners_seq_no 1 with
    | none => Except.error ErrorCode.Overflow
    | some s =>
      Except.ok { ms with owners := owners, threshold := t, owners_seq_no := s }

/-- `change_threshold`. -/
def change_threshold (ms : Multisig) (threshold : Nat) : Except ErrorCode Multisig :=
  if threshold > ms.owners.length then Except.error ErrorCode.InvalidThreshold
  else Except.ok { ms with threshold := threshold }

/-- `change_delay`. -/
def change_delay (ms : Multisig) (delay : Int) : Except ErrorCode Multisig :=
  if delay > 30 * 24 * 3600 then Except.error ErrorCode.InvalidDelay
  else Except.ok { ms with delay := delay }

/-- `create_transaction`. `ms_key` is the multisig account's address
(`multisig.key()`). The body never assigns `tx.index`, `tx.executor`
or `tx.executed_at`, so they keep Anchor's zero-initialization. -/
def create_transaction (ms : Multisig) (ms_key : Nat)
    (instructions : List TransactionInstruction) (bump : Nat)
    (signer : Nat) (now : Int) : Except ErrorCode (Multisig × Transaction) :=
  match position (fun a => a = signer) ms.owners with
  | none => Except.error ErrorCode.InvalidOwner
  | some owner_index =>
    let signers := (List.replicate ms.owners.length false).set owner_index true
    match checked_add_u64 ms.num_transactions 1 with
    | none => Except.error ErrorCode.Overflow
    | some n =>
      Except.ok
        ({ ms with num_transactions := n },
         { multisig := ms_key
           index := 0
           bump := bump
           eta := now + ms.delay
           owners_seq_no := ms.owners_seq_no
           proposer := signer
           instructions := instructions
           signers := signers
           executor := 0
           executed_at := 0 })

/-- `approve`: looks up the caller in the current owner list, requires
the owner-set version to match, then writes the caller's signer slot.
The Rust write `tx.signers[owner_index] = true` is an unguarded index
assignment (it would panic out of bounds); `List.set` is a no-op out
of bounds, and in-boundedness on reachable states is proved below. -/
def approve (ms : Multisig) (tx : Transaction) (signer : Nat) :
    Except ErrorCode Transaction :=
  match position (fun a => a = signer) ms.owners with
  | none => Except.error ErrorCode.InvalidOwner
  | some owner_index =>
    if ms.owners_seq_no = tx.owners_seq_no then
      Except.ok { tx with signers := tx.signers.set owner_index true }
    else Except.error ErrorCode.OwnersChanged

/-- Number of `true` entries of the signer bitmap
(`tx.signers.iter().filter(|&signed| *signed).count()`). -/
def sig_count (tx : Transaction) : Nat :=
  (tx.signers.filter (fun b => b)).length

/-- `execute_transaction`. The owner-membership check is the Anchor
account `constraint`, validated before the handler body runs, hence
first. The CPI dispatch of the stored instructions is host-side and
not part of the state transition; the handler itself only writes
`executed_at` and `executor` (the multisig account is read-only here,
which is why no `Multisig` is returned). -/
def execute_transaction (ms : Multisig) (tx : Transaction) (signer : Nat)
    (now : Int) : Except ErrorCode Transaction :=
  if signer ∉ ms.owners then Except.error ErrorCode.InvalidOwner
  else if now < tx.eta then Except.error ErrorCode.BeforeETA
  else if tx.executed_at ≠ 0 then Except.error ErrorCode.AlreadyExecuted
  else if ms.owners_seq_no ≠ tx.owners_seq_no then Except.error ErrorCode.OwnersChanged
  else if sig_count tx < ms.threshold then Except.error ErrorCode.NotEnoughSigners
  else Except.ok { tx with executed_at := now, executor := signer }

/-! ### The on-chain state machine

One `Multisig` account together with the `Transaction` accounts created
against it. A `Step` is one successful instruction of the program; a
failed instruction aborts the Solana transaction and leaves no trace,
so only `Except.ok` results appear as transitions. -/

structure ChainState where
  ms : Multisig
  txs : List Transaction
deriving DecidableEq, Repr

inductive Step : ChainState → ChainState → Prop where
  | set_owners_step (s : ChainState) (owners : List Nat) (ms2 : Multisig)
      (h : set_owners s.ms owners = Except.ok ms2) :
      Step s ⟨ms2, s.txs⟩
  | change_threshold_step (s : ChainState) (t : Nat) (ms2 : Multisig)
      (h : change_threshold s.ms t = Except.ok ms2) :
      Step s ⟨ms2, s.txs⟩
  | change_delay_step (s : ChainState) (d : Int) (ms2 : Multisig)
      (h : change_delay s.ms d = Except.ok ms2) :
      Step s ⟨ms2, s.txs⟩
  | create_transaction_step (s : ChainState) (ms_key : Nat)
      (instructions : List TransactionInstruction) (bump signer : Nat)
      (now : Int) (ms2 : Multisig) (tx : Transaction)
      (h : create_transaction s.ms ms_key instructions bump signer now =
        Except.ok (ms2, tx)) :
      Step s ⟨ms2, s.txs ++ [tx]⟩
  | approve_step (s : ChainState) (i : Nat) (hi : i < s.txs.length)
      (signer : Nat) (tx2 : Transaction)
      (h : approve s.ms (s.txs.get ⟨i, hi⟩) signer = Except.ok tx2) :
      Step s ⟨s.ms, s.txs.set i tx2⟩
  | execute_step (s : ChainState) (i : Nat) (hi : i < s.txs.length)
      (signer : Nat) (now : Int) (tx2 : Transaction)
      (h : execute_transaction s.ms (s.txs.get ⟨i, hi⟩) signer now =
        Except.ok tx2) :
      Step s ⟨s.ms, s.txs.set i tx2⟩

/-- An initial state: a freshly created multisig, no transactions yet. -/
def Init (s : ChainState) : Prop :=
  s.txs = [] ∧ ∃ base owners threshold delay bump,
    create_multisig base owners threshold delay bump = Except.ok s.ms

/-- A state reachable from some initial state by successful instructions. -/
def Reachable (s : ChainState) : Prop :=
  ∃ s0, Init s0 ∧ Relation.ReflTransGen Step s0 s

/-- The key safety invariant: every transaction's owner-set snapshot is
at most the group's current sequence number, and a transaction whose
snapshot is current has a signer bitmap exactly as long as the current
owner list. -/
def ChainInv (s : ChainState) : Prop :=
  ∀ tx ∈ s.txs,
    tx.owners_seq_no ≤ s.ms.owners_seq_no ∧
    (tx.owners_seq_no = s.ms.owners_seq_no →
      tx.signers.length = s.ms.owners.length)

/-! ### Concrete sample states used by witnesses and counterexamples -/

def msC1 : Multisig :=
  { base := 0, bump := 0, threshold := 2, delay := 0, grace_period := 1209600,
    num_transactions := 1, owners_seq_no := 0, owners := [1, 2] }

def txC1 : Transaction :=
  { multisig := 9, index := 0, bump := 0, eta := 0, owners_seq_no := 0,
    proposer := 1, instructions := [], signers := [true, false],
    executor := 0, executed_at := 0 }

def ms2C1 : Multisig :=
  { msC1 with owners := [5], threshold := 1, owners_seq_no := 1 }

def sC1 : ChainState := { ms := msC1, txs := [txC1] }

def s1C1 : ChainState := { ms := ms2C1, txs := [txC1] }

def tx3W : Transaction :=
  { multisig := 9, index := 0, bump := 0, eta := 0, owners_seq_no := 0,
    proposer := 1, instructions := [], signers := [true, true],
    executor := 0, executed_at := 0 }

def ms4W : Multisig :=
  { base := 0, bump := 0, threshold := 1, delay := 0, grace_period := 1209600,
    num_transactions := 1, owners_seq_no := 0, owners := [1, 2] }

def tx4W : Transaction :=
  { multisig := 9, index := 0, bump := 0, eta := 0, owners_seq_no := 0,
    proposer := 1, instructions := [], signers := [true, false],
    executor := 1, executed_at := 100 }

def ms5W : Multisig :=
  { base := 0, bump := 0, threshold := 1, delay := 0, grace_period := 1209600,
    num_transactions := 1, owners_seq_no := 3, owners := [10, 11] }

def ms5V : Multisig := { ms5W with num_transactions := 2 }

def tx5V : Transaction :=
  { multisig := 7, index := 0, bump := 0, eta := 100, owners_seq_no := 3,
    proposer := 10, instructions := [], signers := [true, false],
    executor := 0, executed_at := 0 }

def ms7W : Multisig :=
  { base := 0, bump := 0, threshold := 5, delay := 0, grace_period := 1209600,
    num_transactions := 0, owners_seq_no := 0, owners := [0] }

def ms7V : Multisig :=
  { msC1 with owners := [7], threshold := 1, owners_seq_no := 1 }

def msI : Multisig :=
  { base := 0, bump := 0, threshold := 1, delay := 0, grace_period := 1209600,
    num_transactions := 0, owners_seq_no := 0, owners := [3, 4] }

def s0W : ChainState := { ms := msI, txs := [] }

def msI2 : Multisig := { msI with num_transactions := 1 }

def txI : Transaction :=
  { multisig := 9, index := 0, bump := 0, eta := 50, owners_seq_no := 0,
    proposer := 3, instructions := [], signers := [true, false],
    executor := 0, executed_at := 0 }

def s1W : ChainState := { ms := msI2, txs := [txI] }

/-! ### Helper lemmas about `position` and `require_unique_owners` -/

theorem position_lt_length {α : Type} {p : α → Bool} {l : List α} {i : Nat}
    (h : position p l = some i) : i < l.length := by
  induction l generalizing i with
  | nil => exact Option.noConfusion h
  | cons a l ih =>
    simp only [position] at h
    split at h
    · cases h
      simp
    · cases hp : position p l with
      | none => rw [hp] at h; exact Option.noConfusion h
      | some j =>
        rw [hp] at h
        simp only [Option.map_some'] at h
        cases h
        have := ih hp
        simp only [List.length_cons]
        omega

theorem position_eq_none_iff {α : Type} {p : α → Bool} {l : List α} :
    position p l = none ↔ ∀ a ∈ l, p a = false := by
  induction l with
  | nil => simp [position]
  | cons a l ih =>
    simp only [position]
    split
    case isTrue hp => simp [hp]
    case isFalse hp =>
      constructor
      · intro h b hb
        have h0 : position p l = none := by
          cases hmap : position p l with
          | none => rfl
          | some j => rw [hmap] at h; exact Option.noConfusion h
        rcases List.mem_cons.mp hb with rfl | hb2
        · exact Bool.eq_false_iff.mpr hp
        · exact (ih.mp h0) b hb2
      · intro h
        have h0 : position p l = none :=
          ih.mpr (fun b hb => h b (List.mem_cons_of_mem a hb))
        rw [h0]
        rfl

theorem position_isSome_of_mem {α : Type} {p : α → Bool} {l : List α} {a : α}
    (ha : a ∈ l) (hp : p a = true) : ∃ i, position p l = some i := by
  cases h : position p l with
  | none => rw [position_eq_none_iff] at h; rw [h a ha] at hp; cases hp
  | some i => exact ⟨i, rfl⟩

theorem position_self_mem {l : List Nat} {x : Nat} (h : x ∈ l) :
    ∃ i, position (fun a => a = x) l = some i :=
  position_isSome_of_mem h (by simp)

theorem require_unique_owners_ok_iff {owners : List Nat} :
    require_unique_owners owners = Except.ok () ↔ owners.Nodup := by
  unfold require_unique_owners
  split
  case isTrue hc =>
    have hsub : owners.dedup.Sublist owners := List.dedup_sublist owners
    have heq : owners.dedup = owners := hsub.eq_of_length hc
    simpa [heq] using (heq ▸ List.nodup_dedup owners)
  case isFalse hc =>
    constructor
    · intro h; cases h
    · intro h
      exact absurd (by rw [h.dedup]) hc

/-! ### Inversion lemmas for the group-management operations -/

theorem require_unique_owners_dup {owners : List Nat} (h : ¬ owners.Nodup) :
    require_unique_owners owners = Except.error ErrorCode.UniqueOwners := by
  unfold require_unique_owners
  rw [if_neg]
  intro hc
  have heq : owners.dedup = owners := (List.dedup_sublist owners).eq_of_length hc
  exact h (heq ▸ List.nodup_dedup owners)

theorem create_multisig_ok_iff {base : Nat} {owners : List Nat} {threshold : Nat}
    {delay : Int} {bump : Nat} {ms : Multisig} :
    create_multisig base owners threshold delay bump = Except.ok ms ↔
      owners.Nodup ∧
      ms = { base := base, bump := bump, threshold := threshold, delay := delay,
             grace_period := 14 * 24 * 3600, num_transactions := 0,
             owners_seq_no := 0, owners := owners } := by
  constructor
  · intro h
    unfold create_multisig at h
    cases hq : require_unique_owners owners with
    | error e => rw [hq] at h; exact Except.noConfusion h
    | ok u =>
      cases u
      rw [hq] at h
      cases h
      exact ⟨require_unique_owners_ok_iff.mp hq, rfl⟩
  · intro ⟨hn, h⟩
    unfold create_multisig
    rw [require_unique_owners_ok_iff.mpr hn, h]

theorem set_owners_eq_of_nodup {ms : Multisig} {owners : List Nat}
    (h1 : owners.Nodup) :
    set_owners ms owners =
      match checked_add_u64 ms.owners_seq_no 1 with
      | none => Except.error ErrorCode.Overflow
      | some s =>
        Except.ok
          { ms with
            owners := owners,
            threshold := (if owners.length < ms.threshold then owners.length
              else ms.threshold),
            owners_seq_no := s } := by
  unfold set_owners
  rw [require_unique_owners_ok_iff.mpr h1]

theorem checked_add_one_eq {a : Nat} (h : a + 1 ≤ U64_MAX) :
    checked_add_u64 a 1 = some (a + 1) := by
  unfold checked_add_u64
  rw [if_pos h]

theorem checked_add_one_overflow {a : Nat} (h : U64_MAX < a + 1) :
    checked_add_u64 a 1 = none := by
  unfold checked_add_u64
  rw [if_neg (by omega)]

theorem set_owners_ok {ms : Multisig} {owners : List Nat} {ms2 : Multisig}
    (h : set_owners ms owners = Except.ok ms2) :
    owners.Nodup ∧
    ms2 =
      { ms with
        owners := owners,
        threshold := (if owners.length < ms.threshold then owners.length
          else ms.threshold),
        owners_seq_no := ms.owners_seq_no + 1 } := by
  have h1 : owners.Nodup := by
    by_contra hn
    rw [set_owners, require_unique_owners_dup hn] at h
    exact Except.noConfusion h
  refine ⟨h1, ?_⟩
  rw [set_owners_eq_of_nodup h1] at h
  cases hc : checked_add_u64 ms.owners_seq_no 1 with
  | none => rw [hc] at h; exact Except.noConfusion h
  | some s =>
    rw [hc] at h
    cases h
    unfold checked_add_u64 at hc
    split at hc
    · cases hc; rfl
    · exact Option.noConfusion hc

theorem set_owners_ok_of_nodup {ms : Multisig} {owners : List Nat}
    (h1 : owners.Nodup) (h2 : ms.owners_seq_no + 1 ≤ U64_MAX) :
    set_owners ms owners =
      Except.ok
        { ms with
          owners := owners,
          threshold := (if owners.length < ms.threshold then owners.length
            else ms.threshold),
          owners_seq_no := ms.owners_seq_no + 1 } := by
  rw [set_owners_eq_of_nodup h1, checked_add_one_eq h2]

theorem set_owners_overflow {ms : Multisig} {owners : List Nat}
    (h1 : owners.Nodup) (h2 : U64_MAX < ms.owners_seq_no + 1) :
    set_owners ms owners = Except.error ErrorCode.Overflow := by
  rw [set_owners_eq_of_nodup h1, checked_add_one_overflow h2]

theorem set_owners_error_inv {ms : Multisig} {owners : List Nat} {e : ErrorCode}
    (h : set_owners ms owners = Except.error e) :
    e = ErrorCode.UniqueOwners ∨ e = ErrorCode.Overflow := by
  by_cases h1 : owners.Nodup
  · rw [set_owners_eq_of_nodup h1] at h
    cases hc : checked_add_u64 ms.owners_seq_no 1 with
    | none => rw [hc] at h; cases h; right; rfl
    | some s => rw [hc] at h; exact Except.noConfusion h
  · rw [set_owners, require_unique_owners_dup h1] at h
    cases h
    left
    rfl

theorem change_threshold_ok_iff {ms : Multisig} {t : Nat} {ms2 : Multisig} :
    change_threshold ms t = Except.ok ms2 ↔
      t ≤ ms.owners.length ∧ ms2 = { ms with threshold := t } := by
  unfold change_threshold
  split
  case isTrue h =>
    constructor
    · intro hh; exact Except.noConfusion hh
    · intro hh; exact absurd hh.1 (by omega)
  case isFalse h =>
    simp only [Except.ok.injEq]
    constructor
    · intro he; exact ⟨by omega, he.symm⟩
    · intro ⟨_, he⟩; exact he.symm

theorem change_threshold_error_iff {ms : Multisig} {t : Nat} :
    change_threshold ms t = Except.error ErrorCode.InvalidThreshold ↔
      ms.owners.length < t := by
  unfold change_threshold
  split
  case isTrue h =>
    constructor
    · intro _; omega
    · intro _; rfl
  case isFalse h =>
    constructor
    · intro hh; exact Except.noConfusion hh
    · intro hh; exact absurd hh (by omega)

theorem change_delay_ok_iff {ms : Multisig} {d : Int} {ms2 : Multisig} :
    change_delay ms d = Except.ok ms2 ↔
      d ≤ 2592000 ∧ ms2 = { ms with delay := d } := by
  unfold change_delay
  split
  case isTrue h =>
    constructor
    · intro hh; exact Except.noConfusion hh
    · intro hh; exact absurd hh.1 (by omega)
  case isFalse h =>
    simp only [Except.ok.injEq]
    constructor
    · intro he; exact ⟨by omega, he.symm⟩
    · intro ⟨_, he⟩; exact he.symm

theorem change_delay_error_iff {ms : Multisig} {d : Int} :
    change_delay ms d = Except.error ErrorCode.InvalidDelay ↔ 2592000 < d := by
  unfold change_delay
  split
  case isTrue h =>
    constructor
    · intro _; omega
    · intro _; rfl
  case isFalse h =>
    constructor
    · intro hh; exact Except.noConfusion hh
    · intro hh; exact absurd hh (by omega)

/-! ### Inversion lemmas for `create_transaction`, `approve`, `execute_transaction` -/

theorem checked_add_u64_some_iff {a b s : Nat} :
    checked_add_u64 a b = some s ↔ a + b ≤ U64_MAX ∧ s = a + b := by
  unfold checked_add_u64
  split
  case isTrue h =>
    constructor
    · intro hh; cases hh; exact ⟨h, rfl⟩
    · intro ⟨_, hh⟩; rw [hh]
  case isFalse h =>
    constructor
    · intro hh; exact Option.noConfusion hh
    · intro ⟨hle, _⟩; exact absurd hle h

theorem checked_add_u64_none_iff {a b : Nat} :
    checked_add_u64 a b = none ↔ U64_MAX < a + b := by
  unfold checked_add_u64
  split
  case isTrue h =>
    constructor
    · intro hh; exact Option.noConfusion hh
    · intro hh; omega
  case isFalse h =>
    constructor
    · intro _; omega
    · intro _; rfl

theorem create_transaction_eq_of_position_some {ms : Multisig} {ms_key : Nat}
    {instructions : List TransactionInstruction} {bump signer : Nat} {now : Int}
    {i : Nat} (h : position (fun a => a = signer) ms.owners = some i) :
    create_transaction ms ms_key instructions bump signer now =
      match checked_add_u64 ms.num_transactions 1 with
      | none => Except.error ErrorCode.Overflow
      | some n =>
        Except.ok
          ({ ms with num_transactions := n },
           { multisig := ms_key, index := 0, bump := bump,
             eta := now + ms.delay, owners_seq_no := ms.owners_seq_no,
             proposer := signer, instructions := instructions,
             signers := (List.replicate ms.owners.length false).set i true,
             executor := 0, executed_at := 0 }) := by
  unfold create_transaction
  rw [h]

theorem create_transaction_invalid_owner {ms : Multisig} {ms_key : Nat}
    {instructions : List TransactionInstruction} {bump signer : Nat} {now : Int}
    (h : position (fun a => a = signer) ms.owners = none) :
    create_transaction ms ms_key instructions bump signer now =
      Except.error ErrorCode.InvalidOwner := by
  unfold create_transaction
  rw [h]

theorem create_transaction_ok_iff {ms : Multisig} {ms_key : Nat}
    {instructions : List TransactionInstruction} {bump signer : Nat} {now : Int}
    {ms2 : Multisig} {tx : Transaction} :
    create_transaction ms ms_key instructions bump signer now =
        Except.ok (ms2, tx) ↔
      ∃ i, position (fun a => a = signer) ms.owners = some i ∧
        ms.num_transactions + 1 ≤ U64_MAX ∧
        ms2 = { ms with num_transactions := ms.num_transactions + 1 } ∧
        tx = { multisig := ms_key, index := 0, bump := bump,
               eta := now + ms.delay, owners_seq_no := ms.owners_seq_no,
               proposer := signer, instructions := instructions,
               signers := (List.replicate ms.owners.length false).set i true,
               executor := 0, executed_at := 0 } := by
  cases hp : position (fun a => a = signer) ms.owners with
  | none =>
    rw [create_transaction_invalid_owner hp]
    constructor
    · intro h; exact Except.noConfusion h
    · rintro ⟨i, hi, _⟩
      exact Option.noConfusion hi
  | some j =>
    rw [create_transaction_eq_of_position_some hp]
    cases hc : checked_add_u64 ms.num_transactions 1 with
    | none =>
      have hlt := checked_add_u64_none_iff.mp hc
      constructor
      · intro h; exact Except.noConfusion h
      · rintro ⟨i, hi, hle, _⟩
        omega
    | some n =>
      obtain ⟨hle, rfl⟩ := checked_add_u64_some_iff.mp hc
      constructor
      · intro h
        cases h
        exact ⟨j, rfl, hle, rfl, rfl⟩
      · rintro ⟨i, hi, _, hms, htx⟩
        cases hi
        rw [hms, htx]

theorem approve_eq_of_position_some {ms : Multisig} {tx : Transaction}
    {signer i : Nat} (h : position (fun a => a = signer) ms.owners = some i) :
    approve ms tx signer =
      if ms.owners_seq_no = tx.owners_seq_no then
        Except.ok { tx with signers := tx.signers.set i true }
      else Except.error ErrorCode.OwnersChanged := by
  unfold approve
  rw [h]

theorem approve_invalid_owner {ms : Multisig} {tx : Transaction} {signer : Nat}
    (h : position (fun a => a = signer) ms.owners = none) :
    approve ms tx signer = Except.error ErrorCode.InvalidOwner := by
  unfold approve
  rw [h]

theorem approve_ok_iff {ms : Multisig} {tx : Transaction} {signer : Nat}
    {tx2 : Transaction} :
    approve ms tx signer = Except.ok tx2 ↔
      ∃ i, position (fun a => a = signer) ms.owners = some i ∧
        ms.owners_seq_no = tx.owners_seq_no ∧
        tx2 = { tx with signers := tx.signers.set i true } := by
  cases hp : position (fun a => a = signer) ms.owners with
  | none =>
    rw [approve_invalid_owner hp]
    constructor
    · intro h; exact Except.noConfusion h
    · rintro ⟨i, hi, _⟩
      exact Option.noConfusion hi
  | some j =>
    rw [approve_eq_of_position_some hp]
    split
    case isTrue hseq =>
      constructor
      · intro h
        cases h
        exact ⟨j, rfl, hseq, rfl⟩
      · rintro ⟨i, hi, _, htx⟩
        cases hi
        rw [htx]
    case isFalse hseq =>
      constructor
      · intro h; exact Except.noConfusion h
      · rintro ⟨i, hi, hs, _⟩
        exact absurd hs hseq

theorem approve_stale_error {ms : Multisig} {tx : Transaction} {signer i : Nat}
    (hi : position (fun a => a = signer) ms.owners = some i)
    (hseq : ms.owners_seq_no ≠ tx.owners_seq_no) :
    approve ms tx signer = Except.error ErrorCode.OwnersChanged := by
  rw [approve_eq_of_position_some hi, if_neg hseq]

theorem approve_not_ok_of_stale {ms : Multisig} {tx : Transaction}
    {signer : Nat} {tx2 : Transaction}
    (hseq : ms.owners_seq_no ≠ tx.owners_seq_no) :
    approve ms tx signer ≠ Except.ok tx2 := by
  intro h
  obtain ⟨i, _, hs, _⟩ := approve_ok_iff.mp h
  exact hseq hs

theorem exec_err_invalid_owner_iff {ms : Multisig} {tx : Transaction}
    {signer : Nat} {now : Int} :
    execute_transaction ms tx signer now = Except.error ErrorCode.InvalidOwner ↔
      signer ∉ ms.owners := by
  unfold execute_transaction
  by_cases h1 : signer ∈ ms.owners
  · rw [if_neg (not_not.mpr h1)]
    by_cases h2 : now < tx.eta
    · rw [if_pos h2]
      constructor
      · intro h; exact absurd h (by decide)
      · intro h; exact absurd h1 h
    · rw [if_neg h2]
      by_cases h3 : tx.executed_at = 0
      · rw [if_neg (not_not.mpr h3)]
        by_cases h4 : ms.owners_seq_no = tx.owners_seq_no
        · rw [if_neg (not_not.mpr h4)]
          by_cases h5 : sig_count tx < ms.threshold
          · rw [if_pos h5]
            constructor
            · intro h; exact absurd h (by decide)
            · intro h; exact absurd h1 h
          · rw [if_neg h5]
            constructor
            · intro h; exact Except.noConfusion h
            · intro h; exact absurd h1 h
        · rw [if_pos h4]
          constructor
          · intro h; exact absurd h (by decide)
          · intro h; exact absurd h1 h
      · rw [if_pos h3]
        constructor
        · intro h; exact absurd h (by decide)
        · intro h; exact absurd h1 h
  · rw [if_pos h1]
    simp [h1]

theorem exec_err_before_eta_iff {ms : Multisig} {tx : Transaction}
    {signer : Nat} {now : Int} :
    execute_transaction ms tx signer now = Except.error ErrorCode.BeforeETA ↔
      signer ∈ ms.owners ∧ now < tx.eta := by
  unfold execute_transaction
  by_cases h1 : signer ∈ ms.owners
  · rw [if_neg (not_not.mpr h1)]
    by_cases h2 : now < tx.eta
    · rw [if_pos h2]
      simp [h1, h2]
    · rw [if_neg h2]
      by_cases h3 : tx.executed_at = 0
      · rw [if_neg (not_not.mpr h3)]
        by_cases h4 : ms.owners_seq_no = tx.owners_seq_no
        · rw [if_neg (not_not.mpr h4)]
          by_cases h5 : sig_count tx < ms.threshold
          · rw [if_pos h5]
            constructor
            · intro h; exact absurd h (by decide)
            · intro h; exact absurd h.2 h2
          · rw [if_neg h5]
            constructor
            · intro h; exact Except.noConfusion h
            · intro h; exact absurd h.2 h2
        · rw [if_pos h4]
          constructor
          · intro h; exact absurd h (by decide)
          · intro h; exact absurd h.2 h2
      · rw [if_pos h3]
        constructor
        · intro h; exact absurd h (by decide)
        · intro h; exact absurd h.2 h2
  · rw [if_pos h1]
    constructor
    · intro h; exact absurd h (by decide)
    · intro h; exact absurd h.1 h1

theorem exec_err_already_iff {ms : Multisig} {tx : Transaction}
    {signer : Nat} {now : Int} :
    execute_transaction ms tx signer now =
        Except.error ErrorCode.AlreadyExecuted ↔
      signer ∈ ms.owners ∧ tx.eta ≤ now ∧ tx.executed_at ≠ 0 := by
  unfold execute_transaction
  by_cases h1 : signer ∈ ms.owners
  · rw [if_neg (not_not.mpr h1)]
    by_cases h2 : now < tx.eta
    · rw [if_pos h2]
      constructor
      · intro h; exact absurd h (by decide)
      · intro h; exact absurd h2 (not_lt.mpr h.2.1)
    · rw [if_neg h2]
      by_cases h3 : tx.executed_at = 0
      · rw [if_neg (not_not.mpr h3)]
        by_cases h4 : ms.owners_seq_no = tx.owners_seq_no
        · rw [if_neg (not_not.mpr h4)]
          by_cases h5 : sig_count tx < ms.threshold
          · rw [if_pos h5]
            constructor
            · intro h; exact absurd h (by decide)
            · intro h; exact absurd h3 h.2.2
          · rw [if_neg h5]
            constructor
            · intro h; exact Except.noConfusion h
            · intro h; exact absurd h3 h.2.2
        · rw [if_pos h4]
          constructor
          · intro h; exact absurd h (by decide)
          · intro h; exact absurd h3 h.2.2
      · rw [if_pos h3]
        simp [h1, h3, not_lt.mp h2]
  · rw [if_pos h1]
    constructor
    · intro h; exact absurd h (by decide)
    · intro h; exact absurd h.1 h1

theorem exec_err_owners_changed_iff {ms : Multisig} {tx : Transaction}
    {signer : Nat} {now : Int} :
    execute_transaction ms tx signer now =
        Except.error ErrorCode.OwnersChanged ↔
      signer ∈ ms.owners ∧ tx.eta ≤ now ∧ tx.executed_at = 0 ∧
        ms.owners_seq_no ≠ tx.owners_seq_no := by
  unfold execute_transaction
  by_cases h1 : signer ∈ ms.owners
  · rw [if_neg (not_not.mpr h1)]
    by_cases h2 : now < tx.eta
    · rw [if_pos h2]
      constructor
      · intro h; exact absurd h (by decide)
      · intro h; exact absurd h2 (not_lt.mpr h.2.1)
    · rw [if_neg h2]
      by_cases h3 : tx.executed_at = 0
      · rw [if_neg (not_not.mpr h3)]
        by_cases h4 : ms.owners_seq_no = tx.owners_seq_no
        · rw [if_neg (not_not.mpr h4)]
          by_cases h5 : sig_count tx < ms.threshold
          · rw [if_pos h5]
            constructor
            · intro h; exact absurd h (by decide)
            · intro h; exact absurd h4 h.2.2.2
          · rw [if_neg h5]
            constructor
            · intro h; exact Except.noConfusion h
            · intro h; exact absurd h4 h.2.2.2
        · rw [if_pos h4]
          simp [h1, h3, h4, not_lt.mp h2]
      · rw [if_pos h3]
        constructor
        · intro h; exact absurd h (by decide)
        · intro h; exact absurd h.2.2.1 h3
  · rw [if_pos h1]
    constructor
    · intro h; exact absurd h (by decide)
    · intro h; exact absurd h.1 h1

theorem exec_err_not_enough_iff {ms : Multisig} {tx : Transaction}
    {signer : Nat} {now : Int} :
    execute_transaction ms tx signer now =
        Except.error ErrorCode.NotEnoughSigners ↔
      signer ∈ ms.owners ∧ tx.eta ≤ now ∧ tx.executed_at = 0 ∧
        ms.owners_seq_no = tx.owners_seq_no ∧ sig_count tx < ms.threshold := by
  unfold execute_transaction
  by_cases h1 : signer ∈ ms.owners
  · rw [if_neg (not_not.mpr h1)]
    by_cases h2 : now < tx.eta
    · rw [if_pos h2]
      constructor
      · intro h; exact absurd h (by decide)
      · intro h; exact absurd h2 (not_lt.mpr h.2.1)
    · rw [if_neg h2]
      by_cases h3 : tx.executed_at = 0
      · rw [if_neg (not_not.mpr h3)]
        by_cases h4 : ms.owners_seq_no = tx.owners_seq_no
        · rw [if_neg (not_not.mpr h4)]
          by_cases h5 : sig_count tx < ms.threshold
          · rw [if_pos h5]
            simp [h1, h3, h4, h5, not_lt.mp h2]
          · rw [if_neg h5]
            constructor
            · intro h; exact Except.noConfusion h
            · intro h; exact absurd h.2.2.2.2 h5
        · rw [if_pos h4]
          constructor
          · intro h; exact absurd h (by decide)
          · intro h; exact absurd h.2.2.2.1 h4
      · rw [if_pos h3]
        constructor
        · intro h; exact absurd h (by decide)
        · intro h; exact absurd h.2.2.1 h3
  · rw [if_pos h1]
    constructor
    · intro h; exact absurd h (by decide)
    · intro h; exact absurd h.1 h1

theorem execute_ok_iff {ms : Multisig} {tx : Transaction} {signer : Nat}
    {now : Int} {tx2 : Transaction} :
    execute_transaction ms tx signer now = Except.ok tx2 ↔
      signer ∈ ms.owners ∧ tx.eta ≤ now ∧ tx.executed_at = 0 ∧
        ms.owners_seq_no = tx.owners_seq_no ∧ ms.threshold ≤ sig_count tx ∧
        tx2 = { tx with executed_at := now, executor := signer } := by
  unfold execute_transaction
  by_cases h1 : signer ∈ ms.owners
  · rw [if_neg (not_not.mpr h1)]
    by_cases h2 : now < tx.eta
    · rw [if_pos h2]
      constructor
      · intro h; exact Except.noConfusion h
      · intro h; exact absurd h2 (not_lt.mpr h.2.1)
    · rw [if_neg h2]
      by_cases h3 : tx.executed_at = 0
      · rw [if_neg (not_not.mpr h3)]
        by_cases h4 : ms.owners_seq_no = tx.owners_seq_no
        · rw [if_neg (not_not.mpr h4)]
          by_cases h5 : sig_count tx < ms.threshold
          · rw [if_pos h5]
            constructor
            · intro h; exact Except.noConfusion h
            · intro h; exact absurd h5 (not_lt.mpr h.2.2.2.2.1)
          · rw [if_neg h5]
            constructor
            · intro h
              cases h
              exact ⟨h1, not_lt.mp h2, h3, h4, not_lt.mp h5, rfl⟩
            · intro h
              rw [h.2.2.2.2.2]
        · rw [if_pos h4]
          constructor
          · intro h; exact Except.noConfusion h
          · intro h; exact absurd h.2.2.2.1 h4
      · rw [if_pos h3]
        constructor
        · intro h; exact Except.noConfusion h
        · intro h; exact absurd h.2.2.1 h3
  · rw [if_pos h1]
    constructor
    · intro h; exact Except.noConfusion h
    · intro h; exact absurd h.1 h1

/-! ### Field-level corollaries of the inversion lemmas -/

theorem set_owners_fields {ms : Multisig} {owners : List Nat} {ms2 : Multisig}
    (h : set_owners ms owners = Except.ok ms2) :
    ms2.owners = owners ∧
    ms2.owners_seq_no = ms.owners_seq_no + 1 ∧
    ms2.threshold = (if owners.length < ms.threshold then owners.length
      else ms.threshold) ∧
    ms2.base = ms.base ∧ ms2.bump = ms.bump ∧ ms2.delay = ms.delay ∧
    ms2.grace_period = ms.grace_period ∧
    ms2.num_transactions = ms.num_transactions := by
  obtain ⟨_, h2⟩ := set_owners_ok h
  subst h2
  exact ⟨rfl, rfl, rfl, rfl, rfl, rfl, rfl, rfl⟩

theorem change_threshold_fields {ms : Multisig} {t : Nat} {ms2 : Multisig}
    (h : change_threshold ms t = Except.ok ms2) :
    ms2.threshold = t ∧ t ≤ ms.owners.length ∧
    ms2.owners = ms.owners ∧ ms2.owners_seq_no = ms.owners_seq_no ∧
    ms2.delay = ms.delay ∧ ms2.base = ms.base ∧ ms2.bump = ms.bump ∧
    ms2.grace_period = ms.grace_period ∧
    ms2.num_transactions = ms.num_transactions := by
  obtain ⟨hle, h2⟩ := change_threshold_ok_iff.mp h
  subst h2
  exact ⟨rfl, hle, rfl, rfl, rfl, rfl, rfl, rfl, rfl⟩

theorem change_delay_fields {ms : Multisig} {d : Int} {ms2 : Multisig}
    (h : change_delay ms d = Except.ok ms2) :
    ms2.delay = d ∧ d ≤ 2592000 ∧
    ms2.owners = ms.owners ∧ ms2.owners_seq_no = ms.owners_seq_no ∧
    ms2.threshold = ms.threshold ∧ ms2.base = ms.base ∧ ms2.bump = ms.bump ∧
    ms2.grace_period = ms.grace_period ∧
    ms2.num_transactions = ms.num_transactions := by
  obtain ⟨hle, h2⟩ := change_delay_ok_iff.mp h
  subst h2
  exact ⟨rfl, hle, rfl, rfl, rfl, rfl, rfl, rfl, rfl⟩

theorem create_transaction_fields {ms : Multisig} {ms_key : Nat}
    {instructions : List TransactionInstruction} {bump signer : Nat} {now : Int}
    {ms2 : Multisig} {tx : Transaction}
    (h : create_transaction ms ms_key instructions bump signer now =
      Except.ok (ms2, tx)) :
    tx.owners_seq_no = ms.owners_seq_no ∧
    tx.signers.length = ms.owners.length ∧
    tx.eta = now + ms.delay ∧ tx.index = 0 ∧ tx.executed_at = 0 ∧
    tx.executor = 0 ∧ tx.proposer = signer ∧ tx.multisig = ms_key ∧
    tx.instructions = instructions ∧
    ms2.owners_seq_no = ms.owners_seq_no ∧ ms2.owners = ms.owners ∧
    ms2.threshold = ms.threshold ∧ ms2.delay = ms.delay ∧
    ms2.num_transactions = ms.num_transactions + 1 := by
  obtain ⟨i, hi, hle, hms, htx⟩ := create_transaction_ok_iff.mp h
  subst hms
  subst htx
  refine ⟨rfl, ?_, rfl, rfl, rfl, rfl, rfl, rfl, rfl, rfl, rfl, rfl, rfl, rfl⟩
  rw [List.length_set, List.length_replicate]

theorem approve_fields {ms : Multisig} {tx : Transaction} {signer : Nat}
    {tx2 : Transaction} (h : approve ms tx signer = Except.ok tx2) :
    ms.owners_seq_no = tx.owners_seq_no ∧
    tx2.owners_seq_no = tx.owners_seq_no ∧
    tx2.signers.length = tx.signers.length ∧
    tx2.multisig = tx.multisig ∧ tx2.index = tx.index ∧ tx2.bump = tx.bump ∧
    tx2.eta = tx.eta ∧ tx2.proposer = tx.proposer ∧
    tx2.instructions = tx.instructions ∧ tx2.executor = tx.executor ∧
    tx2.executed_at = tx.executed_at := by
  obtain ⟨i, hi, hseq, h2⟩ := approve_ok_iff.mp h
  subst h2
  exact ⟨hseq, rfl, List.length_set tx.signers i true, rfl, rfl, rfl, rfl,
    rfl, rfl, rfl, rfl⟩

theorem execute_fields {ms : Multisig} {tx : Transaction} {signer : Nat}
    {now : Int} {tx2 : Transaction}
    (h : execute_transaction ms tx signer now = Except.ok tx2) :
    ms.owners_seq_no = tx.owners_seq_no ∧
    tx2.owners_seq_no = tx.owners_seq_no ∧ tx2.signers = tx.signers ∧
    tx2.eta = tx.eta ∧ tx2.executed_at = now ∧ tx2.executor = signer ∧
    tx2.multisig = tx.multisig ∧ tx2.index = tx.index ∧ tx2.bump = tx.bump ∧
    tx2.proposer = tx.proposer ∧ tx2.instructions = tx.instructions := by
  obtain ⟨hmem, heta, hex, hseq, hq, h2⟩ := execute_ok_iff.mp h
  subst h2
  exact ⟨hseq, rfl, rfl, rfl, rfl, rfl, rfl, rfl, rfl, rfl, rfl⟩

theorem init_inv {s : ChainState} (h : Init s) : ChainInv s := by
  obtain ⟨htxs, _⟩ := h
  intro tx htx
  rw [htxs] at htx
  cases htx

theorem step_inv {s s' : ChainState} (hstep : Step s s') (hinv : ChainInv s) :
    ChainInv s' := by
  cases hstep with
  | set_owners_step owners ms2 h =>
    obtain ⟨ho, hseq2, _⟩ := set_owners_fields h
    intro tx htx
    dsimp only at htx ⊢
    obtain ⟨hle, _⟩ := hinv tx htx
    rw [hseq2]
    exact ⟨by omega, fun heq => absurd heq (by omega)⟩
  | change_threshold_step t ms2 h =>
    obtain ⟨_, _, ho, hseq2, _⟩ := change_threshold_fields h
    intro tx htx
    dsimp only at htx ⊢
    obtain ⟨hle, hlen⟩ := hinv tx htx
    rw [hseq2, ho]
    exact ⟨hle, hlen⟩
  | change_delay_step d ms2 h =>
    obtain ⟨_, _, ho, hseq2, _⟩ := change_delay_fields h
    intro tx htx
    dsimp only at htx ⊢
    obtain ⟨hle, hlen⟩ := hinv tx htx
    rw [hseq2, ho]
    exact ⟨hle, hlen⟩
  | create_transaction_step ms_key instructions bump signer now ms2 tx h =>
    obtain ⟨hseqtx, hlentx, _, _, _, _, _, _, _, hseq2, ho2, _⟩ :=
      create_transaction_fields h
    intro tx0 htx0
    dsimp only at htx0 ⊢
    rw [hseq2, ho2]
    rcases List.mem_append.mp htx0 with hmem | hmem
    · exact hinv tx0 hmem
    · rw [List.mem_singleton] at hmem
      subst hmem
      exact ⟨by omega, fun _ => hlentx⟩
  | approve_step i hi signer tx2 h =>
    obtain ⟨_, hseq2, hslen, _⟩ := approve_fields h
    intro tx0 htx0
    dsimp only at htx0 ⊢
    rcases List.mem_or_eq_of_mem_set htx0 with hmem | heq
    · exact hinv tx0 hmem
    · subst heq
      obtain ⟨hle, hlen⟩ := hinv _ (List.get_mem s.txs i hi)
      rw [hseq2, hslen]
      exact ⟨hle, hlen⟩
  | execute_step i hi signer now tx2 h =>
    obtain ⟨_, hseq2, hsgn, _⟩ := execute_fields h
    intro tx0 htx0
    dsimp only at htx0 ⊢
    rcases List.mem_or_eq_of_mem_set htx0 with hmem | heq
    · exact hinv tx0 hmem
    · subst heq
      obtain ⟨hle, hlen⟩ := hinv _ (List.get_mem s.txs i hi)
      rw [hseq2, hsgn]
      exact ⟨hle, hlen⟩

theorem reachable_inv {s : ChainState} (h : Reachable s) : ChainInv s := by
  obtain ⟨s0, h0, hsteps⟩ := h
  induction hsteps with
  | refl => exact init_inv h0
  | tail _ hstep ih => exact step_inv hstep ih

/-! ### Monotonicity and per-transaction tracking across steps -/

theorem step_seq_mono {s s' : ChainState} (h : Step s s') :
    s.ms.owners_seq_no ≤ s'.ms.owners_seq_no := by
  cases h with
  | set_owners_step owners ms2 h =>
    have h2 := (set_owners_fields h).2.1
    dsimp only
    omega
  | change_threshold_step t ms2 h =>
    have h2 := (change_threshold_fields h).2.2.2.1
    dsimp only
    omega
  | change_delay_step d ms2 h =>
    have h2 := (change_delay_fields h).2.2.2.1
    dsimp only
    omega
  | create_transaction_step ms_key instructions bump signer now ms2 tx h =>
    have h2 := (create_transaction_fields h).2.2.2.2.2.2.2.2.2.1
    dsimp only
    omega
  | approve_step i hi signer tx2 h => exact Nat.le_refl _
  | execute_step i hi signer now tx2 h => exact Nat.le_refl _

theorem step_txs_length_mono {s s' : ChainState} (h : Step s s') :
    s.txs.length ≤ s'.txs.length := by
  cases h with
  | set_owners_step owners ms2 h => exact Nat.le_refl _
  | change_threshold_step t ms2 h => exact Nat.le_refl _
  | change_delay_step d ms2 h => exact Nat.le_refl _
  | create_transaction_step ms_key instructions bump signer now ms2 tx h =>
    dsimp only
    rw [List.length_append]
    omega
  | approve_step i hi signer tx2 h =>
    dsimp only
    rw [List.length_set]
  | execute_step i hi signer now tx2 h =>
    dsimp only
    rw [List.length_set]

theorem step_tx_seq_preserved {s s' : ChainState} (h : Step s s') {i : Nat}
    (hi : i < s.txs.length) (hi' : i < s'.txs.length) :
    (s'.txs.get ⟨i, hi'⟩).owners_seq_no = (s.txs.get ⟨i, hi⟩).owners_seq_no := by
  cases h with
  | set_owners_step owners ms2 h => rfl
  | change_threshold_step t ms2 h => rfl
  | change_delay_step d ms2 h => rfl
  | create_transaction_step ms_key instructions bump signer now ms2 tx h =>
    dsimp only at hi' ⊢
    rw [List.get_append _ hi]
  | approve_step k hk signer tx2 h =>
    dsimp only at hi' ⊢
    by_cases hik : k = i
    · subst hik
      rw [List.get_set_eq]
      exact (approve_fields h).2.1
    · rw [List.get_set_ne hik]
  | execute_step k hk signer now tx2 h =>
    dsimp only at hi' ⊢
    by_cases hik : k = i
    · subst hik
      rw [List.get_set_eq]
      exact (execute_fields h).2.1
    · rw [List.get_set_ne hik]

theorem steps_seq_mono {s s' : ChainState}
    (h : Relation.ReflTransGen Step s s') :
    s.ms.owners_seq_no ≤ s'.ms.owners_seq_no := by
  induction h with
  | refl => exact Nat.le_refl _
  | tail _ hstep ih => exact Nat.le_trans ih (step_seq_mono hstep)

theorem steps_txs_length_mono {s s' : ChainState}
    (h : Relation.ReflTransGen Step s s') :
    s.txs.length ≤ s'.txs.length := by
  induction h with
  | refl => exact Nat.le_refl _
  | tail _ hstep ih => exact Nat.le_trans ih (step_txs_length_mono hstep)

theorem steps_tx_seq_preserved {s s' : ChainState}
    (h : Relation.ReflTransGen Step s s') {i : Nat}
    (hi : i < s.txs.length) (hi' : i < s'.txs.length) :
    (s'.txs.get ⟨i, hi'⟩).owners_seq_no = (s.txs.get ⟨i, hi⟩).owners_seq_no := by
  induction h with
  | refl => rfl
  | tail hab hstep ih =>
    have hib := Nat.lt_of_lt_of_le hi (steps_txs_length_mono hab)
    rw [step_tx_seq_preserved hstep hib hi', ih hib]

/-! ### The claims -/

/-- Claim C1: a successful `approve` or `execute_transaction` requires the
group's current `owners_seq_no` to equal the proposal's snapshot; a
successful `set_owners` bumps the group's counter strictly past the
snapshot of any existing proposal; and in every state reachable from
there the proposal stays stale: `approve` never succeeds (for a caller
found in the current owner list it fails `OwnersChanged`, the spec's
`StaleAuthorization`) and `execute_transaction` never succeeds. The
counter only increases along steps, so the failure is permanent. -/
theorem C1_stale_after_set_owners
    (s : ChainState) (i : Nat) (hi : i < s.txs.length)
    (newOwners : List Nat) (ms2 : Multisig)
    (hcur : (s.txs.get ⟨i, hi⟩).owners_seq_no ≤ s.ms.owners_seq_no)
    (hso : set_owners s.ms newOwners = Except.ok ms2)
    (s' : ChainState)
    (hsteps : Relation.ReflTransGen Step (ChainState.mk ms2 s.txs) s') :
    (∀ ms tx signer tx2, approve ms tx signer = Except.ok tx2 →
      ms.owners_seq_no = tx.owners_seq_no) ∧
    (∀ ms tx signer now tx2,
      execute_transaction ms tx signer now = Except.ok tx2 →
      ms.owners_seq_no = tx.owners_seq_no) ∧
    ∃ hi' : i < s'.txs.length,
      (s'.txs.get ⟨i, hi'⟩).owners_seq_no < s'.ms.owners_seq_no ∧
      (∀ signer tx2,
        approve s'.ms (s'.txs.get ⟨i, hi'⟩) signer ≠ Except.ok tx2) ∧
      (∀ signer j, position (fun a => a = signer) s'.ms.owners = some j →
        approve s'.ms (s'.txs.get ⟨i, hi'⟩) signer =
          Except.error ErrorCode.OwnersChanged) ∧
      (∀ signer now tx2,
        execute_transaction s'.ms (s'.txs.get ⟨i, hi'⟩) signer now ≠
          Except.ok tx2) ∧
      (∀ signer now, signer ∈ s'.ms.owners →
        (s'.txs.get ⟨i, hi'⟩).eta ≤ now →
        (s'.txs.get ⟨i, hi'⟩).executed_at = 0 →
        execute_transaction s'.ms (s'.txs.get ⟨i, hi'⟩) signer now =
          Except.error ErrorCode.OwnersChanged) := by
  refine ⟨fun ms tx signer tx2 h => (approve_fields h).1,
    fun ms tx signer now tx2 h => (execute_fields h).1, ?_⟩
  have hlen2 : (ChainState.mk ms2 s.txs).txs.length ≤ s'.txs.length :=
    steps_txs_length_mono hsteps
  have hi' : i < s'.txs.length := Nat.lt_of_lt_of_le hi hlen2
  have hseqpres : (s'.txs.get ⟨i, hi'⟩).owners_seq_no =
      (s.txs.get ⟨i, hi⟩).owners_seq_no :=
    steps_tx_seq_preserved hsteps hi hi'
  have hms2seq : ms2.owners_seq_no = s.ms.owners_seq_no + 1 :=
    (set_owners_fields hso).2.1
  have hmono : ms2.owners_seq_no ≤ s'.ms.owners_seq_no := steps_seq_mono hsteps
  have hstale : (s'.txs.get ⟨i, hi'⟩).owners_seq_no < s'.ms.owners_seq_no := by
    rw [hseqpres]
    omega
  refine ⟨hi', hstale, ?_, ?_, ?_, ?_⟩
  · intro signer tx2
    exact approve_not_ok_of_stale (by omega)
  · intro signer j hj
    exact approve_stale_error hj (by omega)
  · intro signer now tx2 h
    have := (execute_fields h).1
    omega
  · intro signer now hmem heta hex
    exact exec_err_owners_changed_iff.mpr ⟨hmem, heta, hex, by omega⟩

/-- Witness for C1 at a concrete run: a two-owner group with one pending
proposal, rotated to the single owner `[5]`. -/
theorem C1_witness :
    (∀ ms tx signer tx2, approve ms tx signer = Except.ok tx2 →
      ms.owners_seq_no = tx.owners_seq_no) ∧
    (∀ ms tx signer now tx2,
      execute_transaction ms tx signer now = Except.ok tx2 →
      ms.owners_seq_no = tx.owners_seq_no) ∧
    ∃ hi' : 0 < s1C1.txs.length,
      (s1C1.txs.get ⟨0, hi'⟩).owners_seq_no < s1C1.ms.owners_seq_no ∧
      (∀ signer tx2,
        approve s1C1.ms (s1C1.txs.get ⟨0, hi'⟩) signer ≠ Except.ok tx2) ∧
      (∀ signer j, position (fun a => a = signer) s1C1.ms.owners = some j →
        approve s1C1.ms (s1C1.txs.get ⟨0, hi'⟩) signer =
          Except.error ErrorCode.OwnersChanged) ∧
      (∀ signer now tx2,
        execute_transaction s1C1.ms (s1C1.txs.get ⟨0, hi'⟩) signer now ≠
          Except.ok tx2) ∧
      (∀ signer now, signer ∈ s1C1.ms.owners →
        (s1C1.txs.get ⟨0, hi'⟩).eta ≤ now →
        (s1C1.txs.get ⟨0, hi'⟩).executed_at = 0 →
        execute_transaction s1C1.ms (s1C1.txs.get ⟨0, hi'⟩) signer now =
          Except.error ErrorCode.OwnersChanged) :=
  C1_stale_after_set_owners sC1 0 (by decide) [5] ms2C1 (by decide) (by decide)
    s1C1 Relation.ReflTransGen.refl

/-- Claim C2: `execute_transaction` checks, in order: owner membership
(`InvalidOwner`), timelock (`BeforeETA`), not-yet-executed
(`AlreadyExecuted`), owner-set version (`OwnersChanged`), quorum
(`NotEnoughSigners`); the first failing check determines the error, and
on success only `executed_at`/`executor` change. A failing check returns
`Except.error`, which on Solana aborts the transaction, so neither the
proposal nor the group is modified; the group is read-only in this
handler in all cases. -/
theorem C2_execute_check_order (ms : Multisig) (tx : Transaction)
    (signer : Nat) (now : Int) :
    (execute_transaction ms tx signer now = Except.error ErrorCode.InvalidOwner ↔
      signer ∉ ms.owners) ∧
    (execute_transaction ms tx signer now = Except.error ErrorCode.BeforeETA ↔
      signer ∈ ms.owners ∧ now < tx.eta) ∧
    (execute_transaction ms tx signer now =
        Except.error ErrorCode.AlreadyExecuted ↔
      signer ∈ ms.owners ∧ tx.eta ≤ now ∧ tx.executed_at ≠ 0) ∧
    (execute_transaction ms tx signer now =
        Except.error ErrorCode.OwnersChanged ↔
      signer ∈ ms.owners ∧ tx.eta ≤ now ∧ tx.executed_at = 0 ∧
        ms.owners_seq_no ≠ tx.owners_seq_no) ∧
    (execute_transaction ms tx signer now =
        Except.error ErrorCode.NotEnoughSigners ↔
      signer ∈ ms.owners ∧ tx.eta ≤ now ∧ tx.executed_at = 0 ∧
        ms.owners_seq_no = tx.owners_seq_no ∧
        sig_count tx < ms.threshold) ∧
    (∀ tx2, execute_transaction ms tx signer now = Except.ok tx2 ↔
      signer ∈ ms.owners ∧ tx.eta ≤ now ∧ tx.executed_at = 0 ∧
        ms.owners_seq_no = tx.owners_seq_no ∧
        ms.threshold ≤ sig_count tx ∧
        tx2 = { tx with executed_at := now, executor := signer }) :=
  ⟨exec_err_invalid_owner_iff, exec_err_before_eta_iff, exec_err_already_iff,
    exec_err_owners_changed_iff, exec_err_not_enough_iff,
    fun _ => execute_ok_iff⟩

/-- Claim C3: for an owner caller, execution strictly before `eta` fails
`BeforeETA` (the spec's `TimelockNotElapsed`), and at exactly
`now = eta` the timelock check passes, so execution succeeds whenever
the remaining preconditions (unexecuted, version match, quorum) hold. -/
theorem C3_timelock_boundary (ms : Multisig) (tx : Transaction)
    (signer : Nat) (now : Int) (hmem : signer ∈ ms.owners) :
    (now < tx.eta →
      execute_transaction ms tx signer now =
        Except.error ErrorCode.BeforeETA) ∧
    (now = tx.eta → tx.executed_at = 0 →
      ms.owners_seq_no = tx.owners_seq_no → ms.threshold ≤ sig_count tx →
      execute_transaction ms tx signer now =
        Except.ok { tx with executed_at := now, executor := signer }) := by
  constructor
  · intro hlt
    exact exec_err_before_eta_iff.mpr ⟨hmem, hlt⟩
  · intro heq hex hseq hq
    exact execute_ok_iff.mpr ⟨hmem, heq.symm.le, hex, hseq, hq, rfl⟩

/-- Witness for C3: owner 1 of `msC1`, a fully approved proposal `tx3W`
with `eta = 0`, executed at exactly `now = eta = 0`: the boundary
execution succeeds. -/
theorem C3_witness :
    ((0 : Int) < tx3W.eta →
      execute_transaction msC1 tx3W 1 0 =
        Except.error ErrorCode.BeforeETA) ∧
    ((0 : Int) = tx3W.eta → tx3W.executed_at = 0 →
      msC1.owners_seq_no = tx3W.owners_seq_no →
      msC1.threshold ≤ sig_count tx3W →
      execute_transaction msC1 tx3W 1 0 =
        Except.ok { tx3W with executed_at := 0, executor := 1 }) :=
  C3_timelock_boundary msC1 tx3W 1 0 (by decide)

/-- Claim C4 counterexample: `tx4W` has already been executed
(`executed_at = 100 ≠ 0`), yet `approve` by owner 2 succeeds and changes
the approvals bitmap from `[true, false]` to `[true, true]` — `approve`
never consults `executed_at`, so approvals are not "mutable only until
execution". -/
theorem C4_counterexample :
    tx4W.executed_at ≠ 0 ∧
    approve ms4W tx4W 2 = Except.ok { tx4W with signers := [true, true] } ∧
    tx4W.signers ≠ [true, true] := by decide

/-- Claim C4 (amended): `approve` changes only the approvals bitmap (one
slot to `true`) and no other proposal field — but it can still do so
after execution, since it never checks `executed_at`; a successful
`execute_transaction` changes only `executed_at` and `executor`; and an
`execute_transaction` on a proposal with `executed_at ≠ 0` (by an owner
at or after `eta`) fails `AlreadyExecuted`, repeatably, with no state
change (the error aborts the hosting Solana transaction). -/
theorem C4_frame_amended :
    (∀ ms tx signer tx2, approve ms tx signer = Except.ok tx2 →
      tx2.multisig = tx.multisig ∧ tx2.index = tx.index ∧
      tx2.bump = tx.bump ∧ tx2.eta = tx.eta ∧
      tx2.owners_seq_no = tx.owners_seq_no ∧ tx2.proposer = tx.proposer ∧
      tx2.instructions = tx.instructions ∧ tx2.executor = tx.executor ∧
      tx2.executed_at = tx.executed_at ∧
      ∃ i, position (fun a => a = signer) ms.owners = some i ∧
        tx2.signers = tx.signers.set i true) ∧
    (∀ ms tx signer now tx2,
      execute_transaction ms tx signer now = Except.ok tx2 →
      tx2 = { tx with executed_at := now, executor := signer }) ∧
    (∀ ms tx signer now, signer ∈ ms.owners → tx.eta ≤ now →
      tx.executed_at ≠ 0 →
      execute_transaction ms tx signer now =
        Except.error ErrorCode.AlreadyExecuted) := by
  refine ⟨?_, ?_, ?_⟩
  · intro ms tx signer tx2 h
    obtain ⟨i, hi, hseq, h2⟩ := approve_ok_iff.mp h
    subst h2
    exact ⟨rfl, rfl, rfl, rfl, rfl, rfl, rfl, rfl, rfl, i, hi, rfl⟩
  · intro ms tx signer now tx2 h
    exact (execute_ok_iff.mp h).2.2.2.2.2
  · intro ms tx signer now hmem heta hex
    exact exec_err_already_iff.mpr ⟨hmem, heta, hex⟩

/-- Witness for the amended C4: re-executing the executed `tx4W` fails
`AlreadyExecuted`. -/
theorem C4_witness :
    execute_transaction ms4W tx4W 1 0 =
      Except.error ErrorCode.AlreadyExecuted :=
  C4_frame_amended.2.2 ms4W tx4W 1 0 (by decide) (by decide) (by decide)

/-- Claim C5 (code bug, failing input): on a group whose proposal count
(`num_transactions`) is 1, the proposal created by owner 10 has stored
`index = 0`, not 1 — the handler body never assigns `tx.index`, which
silently keeps Anchor's zero-initialization, while the account address
is derived from `num_transactions`. Every other conjunct of the claim
holds and is evaluated here: approvals all-false except the proposer's
slot, `eta = now + delay`, version snapshot, checked counter increment,
and `InvalidOwner` for a non-owner proposer. -/
theorem C5_index_not_assigned :
    create_transaction ms5W 7 [] 0 10 100 = Except.ok (ms5V, tx5V) ∧
    ms5W.num_transactions = 1 ∧
    tx5V.index = 0 ∧
    tx5V.index ≠ ms5W.num_transactions ∧
    tx5V.signers = [true, false] ∧
    tx5V.eta = 100 + ms5W.delay ∧
    tx5V.owners_seq_no = ms5W.owners_seq_no ∧
    ms5V.num_transactions = ms5W.num_transactions + 1 ∧
    create_transaction ms5W 7 [] 0 99 100 =
      Except.error ErrorCode.InvalidOwner := by decide

/-- Claim C6: `set_owners` never fails on threshold grounds — with a
duplicate-free list it succeeds whenever the version counter does not
overflow, silently clamping the threshold to the new length when the
list is shorter, and bumps `owners_seq_no` by exactly one (checked:
at `u64::MAX` it fails `Overflow`, the spec's `ArithmeticOverflow`);
successful `change_threshold` and `change_delay` leave `owners_seq_no`
unchanged. -/
theorem C6_set_owners_behavior :
    (∀ ms owners,
      set_owners ms owners ≠ Except.error ErrorCode.InvalidThreshold) ∧
    (∀ ms owners, owners.Nodup → ms.owners_seq_no + 1 ≤ U64_MAX →
      set_owners ms owners =
        Except.ok
          { ms with
            owners := owners,
            threshold := (if owners.length < ms.threshold then owners.length
              else ms.threshold),
            owners_seq_no := ms.owners_seq_no + 1 }) ∧
    (∀ ms owners, owners.Nodup → U64_MAX < ms.owners_seq_no + 1 →
      set_owners ms owners = Except.error ErrorCode.Overflow) ∧
    (∀ ms t ms2, change_threshold ms t = Except.ok ms2 →
      ms2.owners_seq_no = ms.owners_seq_no) ∧
    (∀ ms d ms2, change_delay ms d = Except.ok ms2 →
      ms2.owners_seq_no = ms.owners_seq_no) := by
  refine ⟨?_, ?_, ?_, ?_, ?_⟩
  · intro ms owners h
    rcases set_owners_error_inv h with h1 | h1 <;> cases h1
  · intro ms owners h1 h2
    exact set_owners_ok_of_nodup h1 h2
  · intro ms owners h1 h2
    exact set_owners_overflow h1 h2
  · intro ms t ms2 h
    exact (change_threshold_fields h).2.2.2.1
  · intro ms d ms2 h
    exact (change_delay_fields h).2.2.2.1

/-- Witness for C6: rotating the two-owner group `msC1` (threshold 2) to
the single owner `[7]` succeeds, clamps the threshold and bumps the
version. -/
theorem C6_witness :
    set_owners msC1 [7] =
      Except.ok
        { msC1 with
          owners := [7],
          threshold := (if [7].length < msC1.threshold then [7].length
            else msC1.threshold),
          owners_seq_no := msC1.owners_seq_no + 1 } :=
  C6_set_owners_behavior.2.1 msC1 [7] (by decide) (by decide)

/-- Claim C7 counterexample: `create_multisig` validates no threshold at
all — it accepts threshold 5 for a single-owner group, violating
`threshold ≤ |owners|` right after a successful group-management call;
and `change_threshold` accepts 0, violating `1 ≤ threshold`. -/
theorem C7_counterexample :
    create_multisig 0 [0] 5 0 0 = Except.ok ms7W ∧
    ms7W.owners.length < ms7W.threshold ∧
    change_threshold ms7W 0 = Except.ok { ms7W with threshold := 0 } := by
  decide

/-- Claim C7 (amended): `change_threshold` fails `InvalidThreshold`
exactly when the requested threshold exceeds the owner count, and after
a successful `change_threshold` or `set_owners` the group satisfies
`threshold ≤ |owners|`; `create_multisig` performs no threshold
validation, and no operation enforces `1 ≤ threshold`. -/
theorem C7_threshold_amended :
    (∀ ms t, change_threshold ms t = Except.error ErrorCode.InvalidThreshold ↔
      ms.owners.length < t) ∧
    (∀ ms t ms2, change_threshold ms t = Except.ok ms2 →
      ms2.threshold = t ∧ ms2.threshold ≤ ms2.owners.length) ∧
    (∀ ms owners ms2, set_owners ms owners = Except.ok ms2 →
      ms2.threshold ≤ ms2.owners.length) := by
  refine ⟨fun ms t => change_threshold_error_iff, ?_, ?_⟩
  · intro ms t ms2 h
    obtain ⟨ht, hle, ho, _⟩ := change_threshold_fields h
    exact ⟨ht, by rw [ht, ho]; exact hle⟩
  · intro ms owners ms2 h
    obtain ⟨ho, hseq, hth, _⟩ := set_owners_fields h
    rw [hth, ho]
    split
    case isTrue h2 => exact Nat.le_refl _
    case isFalse h2 => omega

/-- Witness for the amended C7: after `set_owners msC1 [7]` the clamped
threshold 1 is within the new owner count 1. -/
theorem C7_witness : ms7V.threshold ≤ ms7V.owners.length :=
  C7_threshold_amended.2.2 msC1 [7] ms7V (by decide)

/-- Claim C8 counterexample: `change_delay` accepts a negative delay
(only `delay > 30 days` is rejected), so the timelock delay is not
always non-negative after a successful `change_delay`; `create_multisig`
stores any delay unvalidated (second conjunct: 40 days at creation). -/
theorem C8_counterexample :
    change_delay msC1 (-1) = Except.ok { msC1 with delay := -1 } ∧
    ({ msC1 with delay := -1 } : Multisig).delay < 0 ∧
    create_multisig 0 [0] 1 3456000 0 =
      Except.ok { ms7W with threshold := 1, delay := 3456000 } := by decide

/-- Claim C8 (amended): `change_delay` fails `InvalidDelay` exactly when
the requested delay exceeds 30 days (2 592 000 s); after a successful
`change_delay` the stored delay equals the request and is at most
30 days (it may be negative); `create_multisig` stores the requested
delay without any validation. -/
theorem C8_delay_amended :
    (∀ ms d, change_delay ms d = Except.error ErrorCode.InvalidDelay ↔
      2592000 < d) ∧
    (∀ ms d ms2, change_delay ms d = Except.ok ms2 →
      ms2.delay = d ∧ d ≤ 2592000) ∧
    (∀ base owners threshold d bump ms,
      create_multisig base owners threshold d bump = Except.ok ms →
      ms.delay = d) := by
  refine ⟨fun ms d => change_delay_error_iff, ?_, ?_⟩
  · intro ms d ms2 h
    obtain ⟨hd, hle, _⟩ := change_delay_fields h
    exact ⟨hd, hle⟩
  · intro base owners threshold d bump ms h
    obtain ⟨_, h2⟩ := create_multisig_ok_iff.mp h
    subst h2
    rfl

/-- Witness for the amended C8: setting the delay of `msC1` to 100 s. -/
theorem C8_witness :
    ({ msC1 with delay := 100 } : Multisig).delay = 100 ∧
    (100 : Int) ≤ 2592000 :=
  C8_delay_amended.2.1 msC1 100 { msC1 with delay := 100 } (by decide)

/-- Claim C9: for a caller at position `i` of the current owner list and
a version-matching proposal, `approve` succeeds and sets exactly slot
`i` of the approvals bitmap to `true`; a second `approve` by the same
owner returns the very same proposal and succeeds (idempotent, not an
error); `eta` and every other field are unchanged, and the group
account is read-only in this handler (the function returns no
`Multisig`). -/
theorem C9_approve_idempotent (ms : Multisig) (tx : Transaction)
    (signer i : Nat)
    (hidx : position (fun a => a = signer) ms.owners = some i)
    (hseq : ms.owners_seq_no = tx.owners_seq_no) :
    approve ms tx signer =
      Except.ok { tx with signers := tx.signers.set i true } ∧
    approve ms { tx with signers := tx.signers.set i true } signer =
      Except.ok { tx with signers := tx.signers.set i true } ∧
    ({ tx with signers := tx.signers.set i true } : Transaction).eta =
      tx.eta ∧
    ({ tx with signers := tx.signers.set i true } : Transaction).multisig =
      tx.multisig ∧
    ({ tx with signers := tx.signers.set i true } : Transaction).index =
      tx.index ∧
    ({ tx with signers := tx.signers.set i true } : Transaction).bump =
      tx.bump ∧
    ({ tx with signers := tx.signers.set i true } : Transaction).owners_seq_no =
      tx.owners_seq_no ∧
    ({ tx with signers := tx.signers.set i true } : Transaction).proposer =
      tx.proposer ∧
    ({ tx with signers := tx.signers.set i true } : Transaction).instructions =
      tx.instructions ∧
    ({ tx with signers := tx.signers.set i true } : Transaction).executor =
      tx.executor ∧
    ({ tx with signers := tx.signers.set i true } : Transaction).executed_at =
      tx.executed_at := by
  have hss : (tx.signers.set i true).set i true = tx.signers.set i true :=
    List.set_set true true tx.signers i
  have h1 : approve ms tx signer =
      Except.ok { tx with signers := tx.signers.set i true } := by
    rw [approve_eq_of_position_some hidx, if_pos hseq]
  have h2 : approve ms { tx with signers := tx.signers.set i true } signer =
      Except.ok { tx with signers := tx.signers.set i true } := by
    rw [approve_eq_of_position_some hidx, if_pos hseq]
    dsimp only
    rw [hss]
  exact ⟨h1, h2, rfl, rfl, rfl, rfl, rfl, rfl, rfl, rfl, rfl⟩

/-- Witness for C9: owner 2 (position 1) approves `txC1` twice. -/
theorem C9_witness :
    approve msC1 txC1 2 =
      Except.ok { txC1 with signers := txC1.signers.set 1 true } ∧
    approve msC1 { txC1 with signers := txC1.signers.set 1 true } 2 =
      Except.ok { txC1 with signers := txC1.signers.set 1 true } ∧
    ({ txC1 with signers := txC1.signers.set 1 true } : Transaction).eta =
      txC1.eta ∧
    ({ txC1 with signers := txC1.signers.set 1 true } : Transaction).multisig =
      txC1.multisig ∧
    ({ txC1 with signers := txC1.signers.set 1 true } : Transaction).index =
      txC1.index ∧
    ({ txC1 with signers := txC1.signers.set 1 true } : Transaction).bump =
      txC1.bump ∧
    ({ txC1 with signers := txC1.signers.set 1 true } : Transaction).owners_seq_no =
      txC1.owners_seq_no ∧
    ({ txC1 with signers := txC1.signers.set 1 true } : Transaction).proposer =
      txC1.proposer ∧
    ({ txC1 with signers := txC1.signers.set 1 true } : Transaction).instructions =
      txC1.instructions ∧
    ({ txC1 with signers := txC1.signers.set 1 true } : Transaction).executor =
      txC1.executor ∧
    ({ txC1 with signers := txC1.signers.set 1 true } : Transaction).executed_at =
      txC1.executed_at :=
  C9_approve_idempotent msC1 txC1 2 1 (by decide) (by decide)

/-- Claim C10: in every reachable chain state, for every stored proposal
whose `owners_seq_no` matches the group's current one, the index that
`approve` computes from the current owner list is strictly within the
proposal's `signers` bitmap — the unguarded Rust write
`tx.signers[owner_index] = true` cannot go out of bounds. -/
theorem C10_approve_write_in_bounds (s : ChainState) (hreach : Reachable s)
    (tx : Transaction) (htx : tx ∈ s.txs) (signer j : Nat)
    (hj : position (fun a => a = signer) s.ms.owners = some j)
    (hseq : s.ms.owners_seq_no = tx.owners_seq_no) :
    j < tx.signers.length := by
  have hinv := reachable_inv hreach tx htx
  have hlen := hinv.2 hseq.symm
  have hjlt := position_lt_length hj
  omega

theorem s0W_init : Init s0W :=
  ⟨rfl, 0, [3, 4], 1, 0, 0, by decide⟩

theorem step_s0W_s1W : Step s0W s1W :=
  Step.create_transaction_step s0W 9 [] 0 3 50 msI2 txI (by decide)

theorem s1W_reachable : Reachable s1W :=
  ⟨s0W, s0W_init, Relation.ReflTransGen.single step_s0W_s1W⟩

/-- Witness for C10: in the reachable state `s1W`, owner 4 (position 1)
approving `txI` writes within its 2-slot bitmap. -/
theorem C10_witness : 1 < txI.signers.length :=
  C10_approve_write_in_bounds s1W s1W_reachable txI (by decide) 4 1
    (by decide) (by decide)
